import Mathlib

/-!
Shallow embedding of the WebRTC signaling relay
(src/server/services/webrtcSignalingService.ts).

Rooms are the `rooms : Map<string, CallRoom>` directory; each room's
`participants : Map<string, WebSocket>` is modelled as an association list
from user identity to a connection id (`Nat`).  Connection-local fields
(`authenticatedUserId`, the `callId` stored on the socket at join time,
and the transport readyState) live in `ConnState`.  Outbound
`ws.send(...)` calls are collected as a list of (connection id, message).
The external `videoCallService.getVideoCall` collaborator is a parameter
`Registry`; every lookup a handler performs is recorded in a query list.
-/

/-- One entry of the external call registry: `{ initiatorId, participantId }`. -/
structure VideoCall where
  initiatorId : String
  participantId : String
  deriving DecidableEq

/-- The external call-registry collaborator `videoCallService.getVideoCall`. -/
abbrev Registry := String → Option VideoCall

/-- An inbound `SignalingMessage` envelope (lines 5-10 of the source). -/
structure SignalingMessage where
  type : String
  callId : String
  userId : String
  data : Option String
  deriving DecidableEq

/-- Connection-local state: the immutable `authenticatedUserId`, the
`callId` property stored on the socket by `handleJoin`, and the transport
readyState (`isOpen` means `readyState === OPEN`). -/
structure ConnState where
  userId : String
  joinedCallId : Option String
  isOpen : Bool
  deriving DecidableEq

/-- Whole-service state: the per-connection records and the
`rooms : Map<string, CallRoom>` directory, each room being its
`participants` map (identity to connection id, in insertion order). -/
structure SigState where
  conns : List (Nat × ConnState)
  rooms : List (String × List (String × Nat))
  deriving DecidableEq

/-- Messages the server writes to a socket (`ws.send(JSON.stringify(...))`). -/
inductive OutMsg where
  | error (message : String)
  | joined (callId : String) (participantCount : Nat)
  | userJoined (userId : String)
  | userLeft (userId : String)
  | relay (kind : String) (payload : Option String) (fromUserId : String)
  deriving DecidableEq

/-- `Map.get`: the value at a key, if present. -/
def aget {κ α : Type} [DecidableEq κ] (k : κ) : List (κ × α) → Option α
  | [] => none
  | (k1, v) :: rest => if k1 = k then some v else aget k rest

/-- `Map.set`: replace the value at an existing key in place, else append. -/
def aset {κ α : Type} [DecidableEq κ] (k : κ) (v : α) : List (κ × α) → List (κ × α)
  | [] => [(k, v)]
  | (k1, v1) :: rest => if k1 = k then (k, v) :: rest else (k1, v1) :: aset k v rest

/-- `Map.delete`: drop the entry at a key. -/
def adel {κ α : Type} [DecidableEq κ] (k : κ) (l : List (κ × α)) : List (κ × α) :=
  l.filter (fun p => p.1 ≠ k)

/-- Update the connection record stored for socket `ws`, if any. -/
def updConn (ws : Nat) (f : ConnState → ConnState) :
    List (Nat × ConnState) → List (Nat × ConnState)
  | [] => []
  | (k, c) :: rest =>
      if k = ws then (k, f c) :: updConn ws f rest else (k, c) :: updConn ws f rest

/-- The `ws.readyState === WebSocket.OPEN` test on a stored handle. -/
def connOpen (st : SigState) (w : Nat) : Bool :=
  match aget w st.conns with
  | some c => c.isOpen
  | none => false

/-- `broadcastToRoom` (source lines 196-205): send `msg` to every participant
of the room for `cid` whose identity differs from `excludeUserId` and whose
socket is open. -/
def broadcastToRoom (st : SigState) (cid : String) (msg : OutMsg)
    (excludeUserId : Option String) : List (Nat × OutMsg) :=
  match aget cid st.rooms with
  | none => []
  | some room =>
      room.filterMap (fun p =>
        if some p.1 ≠ excludeUserId ∧ connOpen st p.2 = true then some (p.2, msg) else none)

/-- The body of `handleJoin` after the get-or-create of the room: `room` is
the (possibly freshly created, hence empty) participants map and `st1` the
directory state after the create. -/
def roomJoinStep (ws : Nat) (cid uid : String) (room : List (String × Nat))
    (st1 : SigState) : SigState × List (Nat × OutMsg) :=
  if (aget uid room).isSome then
    (st1, [(ws, OutMsg.error "User already connected to this call")])
  else if 2 ≤ room.length then
    (st1, [(ws, OutMsg.error "Call is full")])
  else
    let room2 := aset uid ws room
    let st2 : SigState :=
      { conns := updConn ws (fun c => { c with joinedCallId := some cid }) st1.conns,
        rooms := aset cid room2 st1.rooms }
    (st2, broadcastToRoom st2 cid (OutMsg.userJoined uid) (some uid)
            ++ [(ws, OutMsg.joined cid room2.length)])

/-- `handleJoin` (source lines 105-154): get or create the room, reject a
duplicate identity or a full room, otherwise insert, remember the call id on
the socket, notify the others with `user-joined` and ack with `joined`. -/
def handleJoin (ws : Nat) (cid uid : String) (st : SigState) :
    SigState × List (Nat × OutMsg) :=
  match aget cid st.rooms with
  | none => roomJoinStep ws cid uid [] { st with rooms := aset cid [] st.rooms }
  | some room => roomJoinStep ws cid uid room st

/-- `handleLeave` (source lines 167-185): no room means no effect; otherwise
delete the identity, broadcast `user-left` to the remaining participants
(unconditionally), and drop the room from the directory if it became empty. -/
def handleLeave (cid uid : String) (st : SigState) : SigState × List (Nat × OutMsg) :=
  match aget cid st.rooms with
  | none => (st, [])
  | some room =>
    let room2 := adel uid room
    let st1 : SigState := { st with rooms := aset cid room2 st.rooms }
    let outs := broadcastToRoom st1 cid (OutMsg.userLeft uid) none
    if room2.length = 0 then ({ st1 with rooms := adel cid st1.rooms }, outs)
    else (st1, outs)

/-- `relaySignalingMessage` (source lines 156-165): forward `{type, data}`
stamped with `fromUserId` to every room participant except the sender. -/
def relaySignalingMessage (cid fromUserId kind : String) (payload : Option String)
    (st : SigState) : SigState × List (Nat × OutMsg) :=
  match aget cid st.rooms with
  | none => (st, [])
  | some _ =>
      (st, broadcastToRoom st cid (OutMsg.relay kind payload fromUserId) (some fromUserId))

/-- `handleMessage` (source lines 69-103): one registry lookup, then the
not-found and access-denied guards, then the `switch` on the envelope kind
(with no default case: unknown kinds fall through silently).  The third
component records the call ids looked up in the registry. -/
def handleMessage (reg : Registry) (ws : Nat) (msg : SignalingMessage) (st : SigState) :
    SigState × List (Nat × OutMsg) × List String :=
  match reg msg.callId with
  | none => (st, [(ws, OutMsg.error "Video call not found")], [msg.callId])
  | some vc =>
    if vc.initiatorId ≠ msg.userId ∧ vc.participantId ≠ msg.userId then
      (st, [(ws, OutMsg.error "Access denied to this call")], [msg.callId])
    else if msg.type = "join" then
      let r := handleJoin ws msg.callId msg.userId st
      (r.1, r.2, [msg.callId])
    else if msg.type = "offer" ∨ msg.type = "answer" ∨ msg.type = "ice-candidate" then
      let r := relaySignalingMessage msg.callId msg.userId msg.type msg.data st
      (r.1, r.2, [msg.callId])
    else if msg.type = "leave" then
      let r := handleLeave msg.callId msg.userId st
      (r.1, r.2, [msg.callId])
    else (st, [], [msg.callId])

/-- The `ws.on('message')` handler (source lines 49-61): a parse failure
(`raw = none`) is answered with the invalid-format error; a parsed envelope
is processed with its `userId` overridden by the connection's authenticated
identity. -/
def onMessage (reg : Registry) (ws : Nat) (authUserId : String)
    (raw : Option SignalingMessage) (st : SigState) :
    SigState × List (Nat × OutMsg) × List String :=
  match raw with
  | none => (st, [(ws, OutMsg.error "Invalid message format")], [])
  | some d => handleMessage reg ws { d with userId := authUserId } st

/-- `handleDisconnect` (source lines 187-194): read the socket's stored
`callId` and `authenticatedUserId` and run the leave path when both are set
and non-empty (the JS truthiness test `if (callId && userId)`). -/
def handleDisconnect (ws : Nat) (st : SigState) : SigState × List (Nat × OutMsg) :=
  match aget ws st.conns with
  | none => (st, [])
  | some c =>
    match c.joinedCallId with
    | none => (st, [])
    | some cid =>
        if cid ≠ "" ∧ c.userId ≠ "" then handleLeave cid c.userId st else (st, [])

/-- External events driving the service: a successfully authenticated
connection, an inbound frame (none = unparseable), and a transport close. -/
inductive Event where
  | connect (ws : Nat) (userId : String)
  | message (ws : Nat) (raw : Option SignalingMessage)
  | close (ws : Nat)

/-- One event step of the service; yields the new state, the messages sent,
and the registry lookups performed. -/
def step (reg : Registry) (st : SigState) : Event → SigState × List (Nat × OutMsg) × List String
  | Event.connect ws uid =>
      ({ st with conns := aset ws { userId := uid, joinedCallId := none, isOpen := true } st.conns },
       [], [])
  | Event.message ws raw =>
      match aget ws st.conns with
      | none => (st, [], [])
      | some c => onMessage reg ws c.userId raw st
  | Event.close ws =>
      let st1 : SigState := { st with conns := updConn ws (fun c => { c with isOpen := false }) st.conns }
      let r := handleDisconnect ws st1
      (r.1, r.2, [])

/-- The service state reached after a sequence of events. -/
def runState (reg : Registry) (st : SigState) : List Event → SigState
  | [] => st
  | e :: rest => runState reg (step reg st e).1 rest

/-- The service starts with no connections and no rooms. -/
def initState : SigState := { conns := [], rooms := [] }

/-! Association-list lemmas. -/

theorem aget_aset_self {κ α : Type} [DecidableEq κ] (k : κ) (v : α) :
    ∀ l : List (κ × α), aget k (aset k v l) = some v
  | [] => by simp [aget, aset]
  | (pk, pv) :: rest => by
      by_cases hp : pk = k
      · simp [aget, aset, hp]
      · simp [aget, aset, hp, aget_aset_self k v rest]

theorem aget_aset_ne {κ α : Type} [DecidableEq κ] {k k1 : κ} (h : k1 ≠ k) (v : α) :
    ∀ l : List (κ × α), aget k1 (aset k v l) = aget k1 l
  | [] => by simp [aget, aset, Ne.symm h]
  | (pk, pv) :: rest => by
      by_cases hp : pk = k
      · subst hp
        simp [aget, aset, Ne.symm h]
      · by_cases hk : pk = k1
        · simp [aget, aset, hp, hk, h]
        · simp [aget, aset, hp, hk, aget_aset_ne h v rest]

theorem aget_adel_self {κ α : Type} [DecidableEq κ] (k : κ) :
    ∀ l : List (κ × α), aget k (adel k l) = none
  | [] => rfl
  | (pk, pv) :: rest => by
      by_cases hp : pk = k
      · simpa [adel, List.filter_cons, hp] using aget_adel_self k rest
      · simpa [adel, List.filter_cons, aget, hp] using aget_adel_self k rest

theorem aget_adel_ne {κ α : Type} [DecidableEq κ] {k k1 : κ} (h : k1 ≠ k) :
    ∀ l : List (κ × α), aget k1 (adel k l) = aget k1 l
  | [] => rfl
  | (pk, pv) :: rest => by
      by_cases hp : pk = k
      · subst hp
        simpa [adel, List.filter_cons, aget, Ne.symm h] using aget_adel_ne h rest
      · by_cases hk : pk = k1
        · simp [adel, List.filter_cons, aget, hp, hk, h]
        · simpa [adel, List.filter_cons, aget, hp, hk] using aget_adel_ne h rest

theorem aset_of_aget_none {κ α : Type} [DecidableEq κ] {k : κ} (v : α) :
    ∀ {l : List (κ × α)}, aget k l = none → aset k v l = l ++ [(k, v)]
  | [], _ => by simp [aset]
  | (pk, pv) :: rest, h => by
      by_cases hp : pk = k
      · simp [aget, hp] at h
      · simp [aget, hp] at h
        simp [aset, hp, aset_of_aget_none v h]

theorem aget_none_iff_not_mem {κ α : Type} [DecidableEq κ] {k : κ} :
    ∀ {l : List (κ × α)}, aget k l = none ↔ k ∉ l.map Prod.fst
  | [] => by simp [aget]
  | (pk, pv) :: rest => by
      by_cases hp : pk = k
      · subst hp
        simp [aget]
      · simp [aget, hp, Ne.symm hp, aget_none_iff_not_mem (l := rest)]

theorem length_adel_le {κ α : Type} [DecidableEq κ] (k : κ) (l : List (κ × α)) :
    (adel k l).length ≤ l.length :=
  List.length_filter_le _ _

theorem adel_sublist {κ α : Type} [DecidableEq κ] (k : κ) (l : List (κ × α)) :
    List.Sublist (adel k l) l :=
  List.filter_sublist l

theorem aget_updConn (ws : Nat) (f : ConnState → ConnState) :
    ∀ l : List (Nat × ConnState), aget ws (updConn ws f l) = Option.map f (aget ws l)
  | [] => rfl
  | (pk, pc) :: rest => by
      by_cases hp : pk = ws
      · simp [updConn, aget, hp]
      · simpa [updConn, aget, hp] using aget_updConn ws f rest

/-! The room well-formedness invariant. -/

/-- Every room the directory holds has at most two occupants, pairwise
distinct identities, and at least one occupant. -/
def roomOK (room : List (String × Nat)) : Prop :=
  room.length ≤ 2 ∧ (room.map Prod.fst).Nodup ∧ room ≠ []

/-- Invariant of the service state: every registered room is well formed. -/
def RoomsInv (st : SigState) : Prop :=
  ∀ c room, aget c st.rooms = some room → roomOK room

theorem roomsInv_initState : RoomsInv initState := by
  intro c room h
  simp [initState, aget] at h

theorem nodup_append_single {l : List String} {a : String}
    (hl : l.Nodup) (ha : a ∉ l) : (l ++ [a]).Nodup := by
  simp [List.nodup_append, hl, ha]

theorem roomsInv_roomJoinStep (ws : Nat) (cid uid : String) (room : List (String × Nat))
    (st1 : SigState)
    (hlen : room.length ≤ 2) (hnd : (room.map Prod.fst).Nodup)
    (hinv : room ≠ [] → RoomsInv st1)
    (hother : ∀ c r, c ≠ cid → aget c st1.rooms = some r → roomOK r) :
    RoomsInv (roomJoinStep ws cid uid room st1).1 := by
  by_cases hmem : (aget uid room).isSome
  · have hne : room ≠ [] := by
      intro h
      subst h
      simp [aget] at hmem
    have hres : (roomJoinStep ws cid uid room st1).1 = st1 := by
      simp [roomJoinStep, hmem]
    rw [hres]
    exact hinv hne
  · by_cases hfull : 2 ≤ room.length
    · have hne : room ≠ [] := by
        intro h
        subst h
        simp at hfull
      have hres : (roomJoinStep ws cid uid room st1).1 = st1 := by
        simp [roomJoinStep, hmem, hfull]
      rw [hres]
      exact hinv hne
    · have hres : (roomJoinStep ws cid uid room st1).1.rooms
          = aset cid (aset uid ws room) st1.rooms := by
        simp [roomJoinStep, hmem, hfull]
      intro c r hc
      rw [hres] at hc
      by_cases hcc : c = cid
      · subst hcc
        rw [aget_aset_self] at hc
        have habs : aget uid room = none := by
          cases h : aget uid room with
          | none => rfl
          | some v => rw [h] at hmem; simp at hmem
        have hrw : aset uid ws room = room ++ [(uid, ws)] := aset_of_aget_none ws habs
        have hr : r = room ++ [(uid, ws)] := by
          injection hc with hc
          rw [← hc, hrw]
        subst hr
        refine ⟨?_, ?_, ?_⟩
        · simp only [List.length_append, List.length_singleton]
          omega
        · rw [List.map_append]
          exact nodup_append_single hnd (aget_none_iff_not_mem.mp habs)
        · simp
      · rw [aget_aset_ne hcc] at hc
        exact hother c r hcc hc

theorem roomsInv_handleJoin (ws : Nat) (cid uid : String) (st : SigState)
    (h : RoomsInv st) : RoomsInv (handleJoin ws cid uid st).1 := by
  cases hr : aget cid st.rooms with
  | none =>
      have hres : handleJoin ws cid uid st
          = roomJoinStep ws cid uid [] { st with rooms := aset cid [] st.rooms } := by
        simp [handleJoin, hr]
      rw [hres]
      apply roomsInv_roomJoinStep
      · simp
      · simp
      · intro hne
        exact absurd rfl hne
      · intro c r hcc hc
        rw [show ({ st with rooms := aset cid [] st.rooms } : SigState).rooms
              = aset cid ([] : List (String × Nat)) st.rooms from rfl,
            aget_aset_ne hcc] at hc
        exact h c r hc
  | some room =>
      have hres : handleJoin ws cid uid st = roomJoinStep ws cid uid room st := by
        simp [handleJoin, hr]
      rw [hres]
      obtain ⟨hlen, hnd, _⟩ := h cid room hr
      apply roomsInv_roomJoinStep ws cid uid room st hlen hnd
      · intro _
        exact h
      · intro c r _ hc
        exact h c r hc

theorem roomsInv_handleLeave (cid uid : String) (st : SigState) (h : RoomsInv st) :
    RoomsInv (handleLeave cid uid st).1 := by
  cases hr : aget cid st.rooms with
  | none =>
      have hres : handleLeave cid uid st = (st, []) := by
        simp [handleLeave, hr]
      rw [hres]
      exact h
  | some room =>
      obtain ⟨hlen, hnd, _⟩ := h cid room hr
      by_cases hz : (adel uid room).length = 0
      · have hres : (handleLeave cid uid st).1.rooms
            = adel cid (aset cid (adel uid room) st.rooms) := by
          simp [handleLeave, hr, hz]
        intro c r hc
        rw [hres] at hc
        by_cases hcc : c = cid
        · subst hcc
          rw [aget_adel_self] at hc
          cases hc
        · rw [aget_adel_ne hcc, aget_aset_ne hcc] at hc
          exact h c r hc
      · have hres : (handleLeave cid uid st).1.rooms
            = aset cid (adel uid room) st.rooms := by
          simp [handleLeave, hr, hz]
        intro c r hc
        rw [hres] at hc
        by_cases hcc : c = cid
        · subst hcc
          rw [aget_aset_self] at hc
          injection hc with hc
          subst hc
          refine ⟨le_trans (length_adel_le uid room) hlen, ?_, ?_⟩
          · exact hnd.sublist ((adel_sublist uid room).map Prod.fst)
          · intro hnil
            rw [hnil] at hz
            simp at hz
        · rw [aget_aset_ne hcc] at hc
          exact h c r hc

theorem relay_state_eq (cid fromUserId kind : String) (payload : Option String)
    (st : SigState) : (relaySignalingMessage cid fromUserId kind payload st).1 = st := by
  unfold relaySignalingMessage
  cases aget cid st.rooms <;> rfl

theorem roomsInv_handleMessage (reg : Registry) (ws : Nat) (msg : SignalingMessage)
    (st : SigState) (h : RoomsInv st) : RoomsInv (handleMessage reg ws msg st).1 := by
  cases hreg : reg msg.callId with
  | none =>
      have hres : (handleMessage reg ws msg st).1 = st := by
        simp [handleMessage, hreg]
      rw [hres]
      exact h
  | some vc =>
      by_cases hauth : vc.initiatorId ≠ msg.userId ∧ vc.participantId ≠ msg.userId
      · have hres : (handleMessage reg ws msg st).1 = st := by
          simp [handleMessage, hreg, hauth]
        rw [hres]
        exact h
      · by_cases hj : msg.type = "join"
        · have hres : (handleMessage reg ws msg st).1 = (handleJoin ws msg.callId msg.userId st).1 := by
            simp [handleMessage, hreg, hauth, hj]
          rw [hres]
          exact roomsInv_handleJoin ws msg.callId msg.userId st h
        · by_cases hrel : msg.type = "offer" ∨ msg.type = "answer" ∨ msg.type = "ice-candidate"
          · have hres : (handleMessage reg ws msg st).1 = st := by
              simp [handleMessage, hreg, hauth, hj, hrel, relay_state_eq]
            rw [hres]
            exact h
          · by_cases hl : msg.type = "leave"
            · have hres : (handleMessage reg ws msg st).1
                  = (handleLeave msg.callId msg.userId st).1 := by
                simp [handleMessage, hreg, hauth, hj, hrel, hl]
              rw [hres]
              exact roomsInv_handleLeave msg.callId msg.userId st h
            · have hres : (handleMessage reg ws msg st).1 = st := by
                simp [handleMessage, hreg, hauth, hj, hrel, hl]
              rw [hres]
              exact h

theorem roomsInv_onMessage (reg : Registry) (ws : Nat) (auth : String)
    (raw : Option SignalingMessage) (st : SigState) (h : RoomsInv st) :
    RoomsInv (onMessage reg ws auth raw st).1 := by
  cases raw with
  | none =>
      have hres : (onMessage reg ws auth none st).1 = st := by
        simp [onMessage]
      rw [hres]
      exact h
  | some d => exact roomsInv_handleMessage reg ws _ st h

theorem roomsInv_handleDisconnect (ws : Nat) (st : SigState) (h : RoomsInv st) :
    RoomsInv (handleDisconnect ws st).1 := by
  cases hc : aget ws st.conns with
  | none =>
      have hres : (handleDisconnect ws st).1 = st := by
        simp [handleDisconnect, hc]
      rw [hres]
      exact h
  | some c =>
      cases hj : c.joinedCallId with
      | none =>
          have hres : (handleDisconnect ws st).1 = st := by
            simp [handleDisconnect, hc, hj]
          rw [hres]
          exact h
      | some cid =>
          by_cases hnz : cid ≠ "" ∧ c.userId ≠ ""
          · have hres : (handleDisconnect ws st).1 = (handleLeave cid c.userId st).1 := by
              simp [handleDisconnect, hc, hj, hnz]
            rw [hres]
            exact roomsInv_handleLeave cid c.userId st h
          · have hres : (handleDisconnect ws st).1 = st := by
              simp [handleDisconnect, hc, hj, hnz]
            rw [hres]
            exact h

theorem roomsInv_step (reg : Registry) (st : SigState) (e : Event) (h : RoomsInv st) :
    RoomsInv (step reg st e).1 := by
  cases e with
  | connect ws uid =>
      have hres : (step reg st (Event.connect ws uid)).1.rooms = st.rooms := by
        simp [step]
      intro c r hc
      rw [hres] at hc
      exact h c r hc
  | message ws raw =>
      cases hc : aget ws st.conns with
      | none =>
          have hres : (step reg st (Event.message ws raw)).1 = st := by
            simp [step, hc]
          rw [hres]
          exact h
      | some c =>
          have hres : (step reg st (Event.message ws raw)).1
              = (onMessage reg ws c.userId raw st).1 := by
            simp [step, hc]
          rw [hres]
          exact roomsInv_onMessage reg ws c.userId raw st h
  | close ws =>
      have hres : (step reg st (Event.close ws)).1
          = (handleDisconnect ws { st with
                conns := updConn ws (fun c => { c with isOpen := false }) st.conns }).1 := by
        simp [step]
      rw [hres]
      apply roomsInv_handleDisconnect
      intro c r hc
      exact h c r hc

theorem roomsInv_runState (reg : Registry) (st : SigState) (evs : List Event)
    (h : RoomsInv st) : RoomsInv (runState reg st evs) := by
  induction evs generalizing st with
  | nil => exact h
  | cons e rest ih => exact ih _ (roomsInv_step reg st e h)

theorem roomsInv_reachable (reg : Registry) (evs : List Event) :
    RoomsInv (runState reg initState evs) :=
  roomsInv_runState reg initState evs roomsInv_initState

/-! Concrete fixtures used by witnesses and counterexamples. -/

/-- A registry holding one call `c1` between `u1` (initiator) and `u2`. -/
def regW : Registry := fun c =>
  if c = "c1" then some { initiatorId := "u1", participantId := "u2" } else none

/-- The registry of an environment with no calls at all. -/
def regEmpty : Registry := fun _ => none

/-- Both designated participants connect and join call `c1`. -/
def evsW : List Event :=
  [Event.connect 1 "u1",
   Event.message 1 (some { type := "join", callId := "c1", userId := "u1", data := none }),
   Event.connect 2 "u2",
   Event.message 2 (some { type := "join", callId := "c1", userId := "u2", data := none })]

/-- The state with both participants of `c1` joined. -/
def stW : SigState := runState regW initState evsW

/-- One authenticated connection that never joined any room. -/
def stNoJoin : SigState :=
  { conns := [(1, { userId := "u1", joinedCallId := none, isOpen := true })], rooms := [] }

/-- `handleJoin` against a room that already has two occupants, none of them
the joiner, answers `Call is full` and changes nothing. -/
theorem handleJoin_full (ws : Nat) (cid uid : String) (st : SigState)
    (room : List (String × Nat)) (hr : aget cid st.rooms = some room)
    (hfull : 2 ≤ room.length) (habs : aget uid room = none) :
    handleJoin ws cid uid st = (st, [(ws, OutMsg.error "Call is full")]) := by
  simp [handleJoin, hr, roomJoinStep, habs, hfull]

/-- C1: for every sequence of join and leave operations (indeed arbitrary
event sequences) the occupant count of every room is in {0,1,2} and an
identity occupies at most one slot; a join attempt by a third identity,
distinct from the two present ones, fails with the room-full error and
leaves the whole state unchanged. -/
theorem capacity_invariant (reg : Registry) (evs : List Event) :
    (∀ c room, aget c (runState reg initState evs).rooms = some room →
        room.length ≤ 2 ∧ (room.map Prod.fst).Nodup) ∧
    (∀ ws c room uid, aget c (runState reg initState evs).rooms = some room →
        room.length = 2 → aget uid room = none →
        handleJoin ws c uid (runState reg initState evs)
          = (runState reg initState evs, [(ws, OutMsg.error "Call is full")])) := by
  constructor
  · intro c room hc
    obtain ⟨h1, h2, _⟩ := roomsInv_reachable reg evs c room hc
    exact ⟨h1, h2⟩
  · intro ws c room uid hc hlen habs
    exact handleJoin_full ws c uid _ room hc (by omega) habs

/-- Witness for C1: after `u1` and `u2` join `c1`, the join attempt of the
third identity `u3` is answered `Call is full` with the state unchanged. -/
theorem capacity_invariant_witness :
    handleJoin 3 "c1" "u3" (runState regW initState evsW)
      = (runState regW initState evsW, [(3, OutMsg.error "Call is full")]) :=
  (capacity_invariant regW evsW).2 3 "c1" [("u1", 1), ("u2", 2)] "u3"
    (by decide) (by decide) (by decide)

/-- C2: a join envelope whose (authenticated) sender is neither the call's
initiator nor its designated participant is answered with the access-denied
error, sent to the requesting connection only, whatever the room occupancy;
the state is unchanged. -/
theorem join_authorization (reg : Registry) (ws : Nat) (msg : SignalingMessage)
    (st : SigState) (vc : VideoCall)
    (hkind : msg.type = "join")
    (hreg : reg msg.callId = some vc)
    (hinit : vc.initiatorId ≠ msg.userId) (hpart : vc.participantId ≠ msg.userId) :
    handleMessage reg ws msg st
      = (st, [(ws, OutMsg.error "Access denied to this call")], [msg.callId]) := by
  simp [handleMessage, hreg, hinit, hpart]

/-- Witness for C2: identity `eve` is denied a join of call `c1`. -/
theorem join_authorization_witness :
    handleMessage regW 9 { type := "join", callId := "c1", userId := "eve", data := none }
        initState
      = (initState, [(9, OutMsg.error "Access denied to this call")], ["c1"]) :=
  join_authorization regW 9
    { type := "join", callId := "c1", userId := "eve", data := none } initState
    { initiatorId := "u1", participantId := "u2" } rfl (by decide) (by decide) (by decide)

/-- C3: the claimed `userId` field of an inbound envelope is irrelevant: two
inbound frames that differ only in that field produce identical state
changes and identical outbound messages, because the handler overrides it
with the authenticated identity of the connection. -/
theorem claimed_identity_ignored (reg : Registry) (st : SigState) (ws : Nat)
    (e : SignalingMessage) (uid : String) :
    step reg st (Event.message ws (some { e with userId := uid }))
      = step reg st (Event.message ws (some e)) := by
  cases hc : aget ws st.conns with
  | none => simp [step, hc]
  | some c => simp [step, hc, onMessage]

/-- C10: closing the transport of a connection that never completed a join
(its remembered call identifier is unset) leaves the room directory and all
room memberships untouched and sends no message to anyone. -/
theorem close_without_join (reg : Registry) (st : SigState) (ws : Nat) (c : ConnState)
    (hc : aget ws st.conns = some c) (hj : c.joinedCallId = none) :
    (step reg st (Event.close ws)).1.rooms = st.rooms
      ∧ (step reg st (Event.close ws)).2.1 = [] := by
  have hst1 : aget ws (updConn ws (fun c => { c with isOpen := false }) st.conns)
      = some { c with isOpen := false } := by
    rw [aget_updConn, hc]
    rfl
  constructor
  · simp [step, handleDisconnect, hst1, hj]
  · simp [step, handleDisconnect, hst1, hj]

/-- Witness for C10: closing the never-joined connection 1 changes no room
state and notifies nobody. -/
theorem close_without_join_witness :
    (step regW stNoJoin (Event.close 1)).1.rooms = stNoJoin.rooms
      ∧ (step regW stNoJoin (Event.close 1)).2.1 = [] :=
  close_without_join regW stNoJoin 1
    { userId := "u1", joinedCallId := none, isOpen := true } (by decide) rfl

/-- Leaving as the sole occupant removes the room from the directory. -/
theorem handleLeave_sole (cid uid : String) (w : Nat) (st : SigState)
    (hr : aget cid st.rooms = some [(uid, w)]) :
    aget cid ((handleLeave cid uid st).1).rooms = none := by
  have hadel : adel uid [(uid, w)] = [] := by simp [adel]
  simp [handleLeave, hr, hadel, aget_adel_self]

/-- Joining a call with no registered room creates a fresh one-occupant room
and answers only the `joined` acknowledgement with count 1. -/
theorem handleJoin_fresh (ws : Nat) (cid uid : String) (st : SigState)
    (hr : aget cid st.rooms = none) :
    aget cid ((handleJoin ws cid uid st).1).rooms = some [(uid, ws)]
      ∧ (handleJoin ws cid uid st).2 = [(ws, OutMsg.joined cid 1)] := by
  have hroom2 : aset uid ws ([] : List (String × Nat)) = [(uid, ws)] := rfl
  constructor
  · simp [handleJoin, hr, roomJoinStep, hroom2, aget, aget_aset_self]
  · simp [handleJoin, hr, roomJoinStep, hroom2, aget, broadcastToRoom, aget_aset_self,
      List.filterMap]

/-- C7: a reachable room always has at least one occupant; when the sole
occupant leaves, the room disappears from the directory; and a join for a
call identifier with no room creates a fresh room holding exactly the
joiner, acknowledged with occupant count 1. -/
theorem room_lifecycle (reg : Registry) (evs : List Event) :
    (∀ c room, aget c (runState reg initState evs).rooms = some room → room ≠ []) ∧
    (∀ c uid w, aget c (runState reg initState evs).rooms = some [(uid, w)] →
        aget c ((handleLeave c uid (runState reg initState evs)).1).rooms = none) ∧
    (∀ ws c uid, aget c (runState reg initState evs).rooms = none →
        aget c ((handleJoin ws c uid (runState reg initState evs)).1).rooms
            = some [(uid, ws)]
          ∧ (handleJoin ws c uid (runState reg initState evs)).2
            = [(ws, OutMsg.joined c 1)]) := by
  refine ⟨?_, ?_, ?_⟩
  · intro c room hc
    exact (roomsInv_reachable reg evs c room hc).2.2
  · intro c uid w hc
    exact handleLeave_sole c uid w _ hc
  · intro ws c uid hc
    exact handleJoin_fresh ws c uid _ hc

/-- Witness for C7: from a state with no room for `c1`, the join of `u1`
creates the fresh room `[(u1, 1)]` and acks with count 1. -/
theorem room_lifecycle_witness :
    aget "c1" ((handleJoin 1 "c1" "u1"
          (runState regW initState [Event.connect 1 "u1"])).1).rooms
        = some [("u1", 1)]
      ∧ (handleJoin 1 "c1" "u1" (runState regW initState [Event.connect 1 "u1"])).2
        = [(1, OutMsg.joined "c1" 1)] :=
  (room_lifecycle regW [Event.connect 1 "u1"]).2.2 1 "c1" "u1" (by decide)

/-- With every room member's socket open, the broadcast filter keeps exactly
the members whose identity differs from the excluded one. -/
theorem filterMap_broadcast_open (st : SigState) (m : OutMsg) (uid : String) :
    ∀ room : List (String × Nat), (∀ p ∈ room, connOpen st p.2 = true) →
      room.filterMap (fun p =>
          if some p.1 ≠ some uid ∧ connOpen st p.2 = true then some (p.2, m) else none)
        = (room.filter (fun p => p.1 ≠ uid)).map (fun p => (p.2, m))
  | [], _ => rfl
  | (pk, pw) :: rest, hop => by
      have hco : connOpen st pw = true := hop (pk, pw) (by simp)
      have hrest := filterMap_broadcast_open st m uid rest (fun p hp => hop p (by simp [hp]))
      by_cases hpu : pk = uid
      · simpa [List.filterMap_cons, List.filter_cons, hpu, hco] using hrest
      · simpa [List.filterMap_cons, List.filter_cons, hpu, hco] using hrest

/-- C8: relaying a negotiation envelope from an occupant delivers the
payload unchanged, stamped with the authenticated sender identity, to every
other occupant of the room and never to the sender; a sole occupant gets no
delivery and no error; the state is unchanged. -/
theorem relay_exclusion (st : SigState) (cid uid kind : String) (payload : Option String)
    (room : List (String × Nat))
    (hr : aget cid st.rooms = some room)
    (hmem : ∃ w, (uid, w) ∈ room)
    (hop : ∀ p ∈ room, connOpen st p.2 = true) :
    relaySignalingMessage cid uid kind payload st
      = (st, (room.filter (fun p => p.1 ≠ uid)).map
              (fun p => (p.2, OutMsg.relay kind payload uid))) := by
  simp only [relaySignalingMessage, hr, broadcastToRoom]
  simpa using filterMap_broadcast_open st (OutMsg.relay kind payload uid) uid room hop

/-- Witness for C8: in the 2-party room of `c1`, an offer of `u1` reaches
connection 2 (`u2`) only. -/
theorem relay_exclusion_witness :
    relaySignalingMessage "c1" "u1" "offer" (some "sdp") stW
      = (stW, [(2, OutMsg.relay "offer" (some "sdp") "u1")]) := by
  rw [relay_exclusion stW "c1" "u1" "offer" (some "sdp") [("u1", 1), ("u2", 2)]
    (by decide) ⟨1, by decide⟩ (by decide)]
  decide

/-- C4 evaluated at the failing input: with `u1` and `u2` both in the room
of `c1`, the explicit leave of `u1` notifies `u2` once, and the subsequent
transport close of connection 1 runs the leave path again and notifies `u2`
a second time, because `handleLeave` broadcasts `user-left` without checking
that the removal changed membership. -/
theorem double_leave_double_notify :
    (step regW stW (Event.message 1
        (some { type := "leave", callId := "c1", userId := "u1", data := none }))).2.1
        = [(2, OutMsg.userLeft "u1")]
      ∧ (step regW
            (step regW stW (Event.message 1
              (some { type := "leave", callId := "c1", userId := "u1", data := none }))).1
            (Event.close 1)).2.1
        = [(2, OutMsg.userLeft "u1")] := by
  decide

/-- C5 counterexample: connection 1 (authenticated `u1`) has not joined any
room, yet its ice-candidate envelope for `c1` produces no error envelope at
all — the claim requires a protocol-violation error to be emitted. -/
theorem violation_not_reported :
    handleMessage regW 1
        { type := "ice-candidate", callId := "c1", userId := "u1", data := some "cand" }
        stNoJoin
      = (stNoJoin, [], ["c1"]) := by
  decide

/-- C5 amended: negotiation and leave envelopes are not gated on the sender
being in a room — with no room registered for the call they are silently
dropped (no error, no state change); a join while the sender identity
already occupies a slot of the room is the one case answered with an error
envelope, sent to the offending connection only, with state unchanged. -/
theorem state_gating (reg : Registry) (ws : Nat) (msg : SignalingMessage)
    (st : SigState) (vc : VideoCall)
    (hreg : reg msg.callId = some vc)
    (hauth : vc.initiatorId = msg.userId ∨ vc.participantId = msg.userId) :
    ((msg.type = "offer" ∨ msg.type = "answer" ∨ msg.type = "ice-candidate"
        ∨ msg.type = "leave") →
      aget msg.callId st.rooms = none →
      handleMessage reg ws msg st = (st, [], [msg.callId])) ∧
    (msg.type = "join" → ∀ room, aget msg.callId st.rooms = some room →
      (aget msg.userId room).isSome →
      handleMessage reg ws msg st
        = (st, [(ws, OutMsg.error "User already connected to this call")], [msg.callId])) := by
  have hnauth : ¬(vc.initiatorId ≠ msg.userId ∧ vc.participantId ≠ msg.userId) := by
    rcases hauth with h | h <;> simp [h]
  constructor
  · rintro (hk | hk | hk | hk) hroom <;>
      simp [handleMessage, hreg, hnauth, hk, relaySignalingMessage, handleLeave, hroom]
  · intro hk room hroom hmem
    simp [handleMessage, hreg, hnauth, hk, handleJoin, hroom, roomJoinStep, hmem]

/-- Witness for the amended C5: a leave envelope for `c1` from the
authorized `u1` while no room exists is silently dropped. -/
theorem state_gating_witness :
    handleMessage regW 1 { type := "leave", callId := "c1", userId := "u1", data := none }
        stNoJoin
      = (stNoJoin, [], ["c1"]) :=
  (state_gating regW 1
      { type := "leave", callId := "c1", userId := "u1", data := none } stNoJoin
      { initiatorId := "u1", participantId := "u2" } (by decide)
      (Or.inl (by decide))).1 (Or.inr (Or.inr (Or.inr rfl))) (by decide)

/-- C6 counterexample: a leave envelope performs a registry lookup (the
query list is non-empty) and its whole outcome differs between an empty
registry and one that knows the call — the claim says leave performs no
lookup and cannot depend on registry contents. -/
theorem leave_outcome_depends_on_registry :
    (handleMessage regEmpty 1
        { type := "leave", callId := "c1", userId := "u1", data := none } initState).2.2
        = ["c1"]
      ∧ handleMessage regEmpty 1
          { type := "leave", callId := "c1", userId := "u1", data := none } initState
        ≠ handleMessage regW 1
            { type := "leave", callId := "c1", userId := "u1", data := none } initState := by
  decide

/-- C6 amended: the Call Registry is queried exactly once per parsed inbound
envelope of every kind — join, offer, answer, ice-candidate, leave and
unknown kinds alike. -/
theorem registry_once_per_envelope (reg : Registry) (ws : Nat) (msg : SignalingMessage)
    (st : SigState) : (handleMessage reg ws msg st).2.2 = [msg.callId] := by
  cases hreg : reg msg.callId with
  | none => simp [handleMessage, hreg]
  | some vc =>
      by_cases hauth : vc.initiatorId ≠ msg.userId ∧ vc.participantId ≠ msg.userId
      · simp [handleMessage, hreg, hauth]
      · by_cases hj : msg.type = "join"
        · simp [handleMessage, hreg, hauth, hj]
        · by_cases hrel : msg.type = "offer" ∨ msg.type = "answer" ∨ msg.type = "ice-candidate"
          · simp [handleMessage, hreg, hauth, hj, hrel]
          · by_cases hl : msg.type = "leave"
            · simp [handleMessage, hreg, hauth, hj, hrel, hl]
            · simp [handleMessage, hreg, hauth, hj, hrel, hl]

/-- C9 counterexample: an envelope of unknown kind `bogus` from an
authorized sender for an existing call is silently ignored — no error
envelope is produced, contrary to the claim. -/
theorem unknown_kind_ignored :
    onMessage regW 1 "u1"
        (some { type := "bogus", callId := "c1", userId := "u1", data := none }) initState
      = (initState, [], ["c1"]) := by
  decide

/-- C9 amended: an unparseable frame is answered with the invalid-format
error envelope and the state (hence the connection) is untouched; an
envelope of unknown kind that passes the call-existence and authorization
checks produces no reply at all and changes nothing. -/
theorem malformed_envelope_handling (reg : Registry) (ws : Nat) (auth : String)
    (st : SigState) :
    onMessage reg ws auth none st
        = (st, [(ws, OutMsg.error "Invalid message format")], [])
      ∧ (∀ e : SignalingMessage, ∀ vc : VideoCall, reg e.callId = some vc →
          (vc.initiatorId = auth ∨ vc.participantId = auth) →
          e.type ≠ "join" → e.type ≠ "offer" → e.type ≠ "answer" →
          e.type ≠ "ice-candidate" → e.type ≠ "leave" →
          onMessage reg ws auth (some e) st = (st, [], [e.callId])) := by
  constructor
  · rfl
  · intro e vc hreg hauth h1 h2 h3 h4 h5
    have hnauth : ¬(vc.initiatorId ≠ auth ∧ vc.participantId ≠ auth) := by
      rcases hauth with h | h <;> simp [h]
    simp [onMessage, handleMessage, hreg, hnauth, h1, h2, h3, h4, h5]

/-- Witness for the amended C9: the unknown kind `nonsense` sent by the
authorized `u2` is silently ignored. -/
theorem malformed_envelope_witness :
    onMessage regW 7 "u2"
        (some { type := "nonsense", callId := "c1", userId := "whoever", data := none })
        initState
      = (initState, [], ["c1"]) :=
  (malformed_envelope_handling regW 7 "u2" initState).2
    { type := "nonsense", callId := "c1", userId := "whoever", data := none }
    { initiatorId := "u1", participantId := "u2" } (by decide) (Or.inr (by decide))
    (by decide) (by decide) (by decide) (by decide) (by decide)
